import Mathlib

/-!
Shallow embedding of the acme-widgets basket pricing core (`src/main.py`).

Modelling choices:
* Money is modelled exactly, as integers counting mils (thousandths of a
  dollar): the price `32.95` is `32950`, the delivery fee `4.95` is `4950`,
  the thresholds `50` and `90` are `50000` and `90000`. Every constant in the
  program is an exact multiple of `0.005`, and the only division in the
  program (`catalog.get("R01").price / 2`) halves the even number `32950`, so
  the scaled-integer arithmetic coincides exactly with the program's decimal
  arithmetic and nothing is lost to rounding.
* Python `dict` / `defaultdict` values are modelled as insertion-ordered
  association lists `List (String × _)`; a `defaultdict(lambda: 0)` read of a
  missing key inserts the key with value `0` at the end, exactly as CPython
  does, and `d[k] += 1` updates the first occurrence in place or appends.
* A raised `ValueError` is modelled as `none` in an `Option` result; fallible
  stateful operations return the post-state alongside the `Option` result,
  since in Python the mutated object survives the exception.
-/

/-- The widget product: description, code, price in mils
(`Widget` in `main.py`). -/
structure Widget where
  description : String
  code : String
  price : ℤ
deriving DecidableEq, Repr

/-- Insertion-ordered association list standing for a Python `dict`
or `defaultdict` keyed by strings. -/
abbrev Items := List (String × Nat)

/-- First-occurrence lookup in an association list (Python `d[k]` / `k in d`). -/
def alookup {β : Type} : List (String × β) → String → Option β
  | [], _ => none
  | (k, v) :: rest, code => if k = code then some v else alookup rest code

/-- Quantity of a code in the order-line map: the stored value, or the
`defaultdict` default `0` when the key is absent. -/
def qty (it : Items) (code : String) : ℕ :=
  (alookup it code).getD 0

/-- `defaultdict(lambda: 0)` read `d[k]`: returns the value and the
possibly-extended dict (CPython `__missing__` inserts `k ↦ 0` at the end). -/
def dget : Items → String → ℕ × Items
  | [], code => (0, [(code, 0)])
  | (k, v) :: rest, code =>
    if k = code then (v, (k, v) :: rest)
    else
      let r := dget rest code
      (r.1, (k, v) :: r.2)

/-- `d[k] += 1` on a `defaultdict(lambda: 0)`: update the entry in place,
or append `k ↦ 1` when the key is absent. -/
def dincr : Items → String → Items
  | [], code => [(code, 1)]
  | (k, v) :: rest, code =>
    if k = code then (k, v + 1) :: rest
    else (k, v) :: dincr rest code

/-- `dict` insertion with last-write-wins and preserved key position
(used by `WidgetCatalog.populate_catalog`). -/
def dinsert : List (String × Widget) → String → Widget → List (String × Widget)
  | [], code, w => [(code, w)]
  | (k, v) :: rest, code, w =>
    if k = code then (k, w) :: rest
    else (k, v) :: dinsert rest code w

/-- `WidgetCatalog.populate_catalog`: build the code → widget dict from the
given widgets, in order. -/
def populate_catalog (ws : List Widget) : List (String × Widget) :=
  ws.foldl (fun d w => dinsert d w.code w) []

/-- `WidgetCatalog` in `main.py`: holds the code → widget dict. -/
structure WidgetCatalog where
  widgets : List (String × Widget)
deriving DecidableEq, Repr

/-- `WidgetCatalog.__init__`. -/
def WidgetCatalog.init (ws : List Widget) : WidgetCatalog :=
  ⟨populate_catalog ws⟩

/-- `WidgetCatalog.contains`: `code in self.widgets`. -/
def WidgetCatalog.contains (c : WidgetCatalog) (code : String) : Bool :=
  (alookup c.widgets code).isSome

/-- `WidgetCatalog.get`: the widget when present, `none` for the raised
`ValueError` ("Catalog does not contain widget with code ...") otherwise. -/
def WidgetCatalog.get (c : WidgetCatalog) (code : String) : Option Widget :=
  if c.contains code then alookup c.widgets code else none

/-- `delivery_charge` in `main.py`: the guards of the `match` statement in
source order; `none` models the `ValueError` on a negative subtotal.
Amounts in mils: `50000` is `$50`, `4950` is `$4.95`, and so on. -/
def delivery_charge (total : ℤ) : Option ℤ :=
  if total < 0 then none
  else if total = 0 then some 0
  else if total < 50000 then some 4950
  else if total < 90000 then some 2950
  else some 0

/-- `SpecialOffer`: a description plus an `apply_func` taking the ordered
items and the catalog. The function returns the discount (`none` for a raised
error) together with the possibly-mutated items dict, because the items are a
`defaultdict` whose reads can insert keys. -/
structure SpecialOffer where
  description : String
  apply_func : Items → WidgetCatalog → Option ℤ × Items

/-- `SpecialOffer.__init__`: stores both arguments; no validation occurs. -/
def SpecialOffer.init (description : String)
    (apply_func : Items → WidgetCatalog → Option ℤ × Items) : SpecialOffer :=
  ⟨description, apply_func⟩

/-- `SpecialOffer.apply`: delegates to `apply_func`. -/
def SpecialOffer.apply (o : SpecialOffer) (items_ordered : Items)
    (catalog : WidgetCatalog) : Option ℤ × Items :=
  o.apply_func items_ordered catalog

/-- `SpecialOfferHandler`: a collection of special offers. -/
structure SpecialOfferHandler where
  offers : List SpecialOffer

/-- The `for offer in self.offers` loop inside
`SpecialOfferHandler.get_discount`: accumulate discounts, threading the items
dict through each offer; stop with `none` at the first raised error. -/
def offersLoop : List SpecialOffer → ℤ → Items → WidgetCatalog → Option ℤ × Items
  | [], acc, it, _ => (some acc, it)
  | o :: rest, acc, it, catalog =>
    match o.apply it catalog with
    | (none, it') => (none, it')
    | (some d, it') => offersLoop rest (acc + d) it' catalog

/-- `SpecialOfferHandler.get_discount`: `total_discount = 0`; when
`len(items_ordered)` is non-zero, add every offer's `apply` result. -/
def SpecialOfferHandler.get_discount (h : SpecialOfferHandler)
    (items_ordered : Items) (catalog : WidgetCatalog) : Option ℤ × Items :=
  if items_ordered.length ≠ 0 then offersLoop h.offers 0 items_ordered catalog
  else (some 0, items_ordered)

/-- `Basket` in `main.py`: catalog, delivery-charge strategy, optional offers
handler (default `None`), and the order-line `defaultdict`. -/
structure Basket where
  catalog : WidgetCatalog
  calculate_delivery_charge : ℤ → Option ℤ
  special_offers_handler : Option SpecialOfferHandler
  items_ordered : Items

/-- `Basket.__init__`: `items_ordered` starts as an empty
`defaultdict(lambda: 0)`. -/
def Basket.init (catalog : WidgetCatalog)
    (calculate_delivery_charge : ℤ → Option ℤ)
    (special_offers_handler : Option SpecialOfferHandler) : Basket :=
  ⟨catalog, calculate_delivery_charge, special_offers_handler, []⟩

/-- `Basket.add`: increment the code's quantity when the catalog contains it,
otherwise raise (`none`); the second component is the basket after the call
(unchanged when the error is raised). -/
def Basket.add (b : Basket) (widget_code : String) : Option Unit × Basket :=
  if b.catalog.contains widget_code then
    (some (), { b with items_ordered := dincr b.items_ordered widget_code })
  else (none, b)

/-- The `for widget_code, widget_count in self.items_ordered.items()` loop of
`Basket.total`: sum `catalog.get(code).price * count`; `none` when some lookup
raises. -/
def sumLines : Items → WidgetCatalog → Option ℤ
  | [], _ => some 0
  | (code, count) :: rest, catalog =>
    match catalog.get code with
    | none => none
    | some w => (sumLines rest catalog).map (fun s => w.price * count + s)

/-- The `if self.special_offers_handler:` step of `Basket.total`: the discount
to subtract and the items dict after the handler ran (`0` and unchanged items
when no handler is configured). -/
def Basket.discountPair (b : Basket) : Option ℤ × Items :=
  match b.special_offers_handler with
  | some h => h.get_discount b.items_ordered b.catalog
  | none => (some 0, b.items_ordered)

/-- `Basket.total`: line sum, minus discount, plus
`calculate_delivery_charge` of the intermediate total; returns the result
(`none` when an error was raised) and the basket after the call, whose
`items_ordered` may have been extended by a `defaultdict` read inside an
offer. -/
def Basket.total (b : Basket) : Option ℤ × Basket :=
  match sumLines b.items_ordered b.catalog with
  | none => (none, b)
  | some s =>
    match b.discountPair with
    | (none, it') => (none, { b with items_ordered := it' })
    | (some d, it') =>
      let t := s - d
      let b' : Basket := { b with items_ordered := it' }
      match b.calculate_delivery_charge t with
      | none => (none, b')
      | some fee => (some (t + fee), b')

/-- `Basket.clear`: fresh empty `defaultdict`. -/
def Basket.clear (b : Basket) : Basket :=
  { b with items_ordered := [] }

/-- The line list of the `Basket.widgets` property; `none` when a
`catalog.get` raises. -/
def widgetLines : Items → WidgetCatalog → Option (List String)
  | [], _ => some []
  | (code, count) :: rest, catalog =>
    match catalog.get code with
    | none => none
    | some w =>
      (widgetLines rest catalog).map
        (fun ls => (w.description ++ ": " ++ toString count) :: ls)

/-- `Basket.widgets` property: one `description: count` line per ordered code
in insertion order, or the literal `"[]"` for an empty basket. -/
def Basket.widgets (b : Basket) : Option String :=
  if b.items_ordered.length ≠ 0 then
    (widgetLines b.items_ordered b.catalog).map (fun ls => String.intercalate "\n" ls)
  else some "[]"

/-- The catalog built inside `get_basket`: R01 at `$32.95`, G01 at `$24.95`,
B01 at `$7.95` (prices in mils). -/
def widget_catalog : WidgetCatalog :=
  WidgetCatalog.init
    [ ⟨"Red Widget", "R01", 32950⟩
    , ⟨"Green Widget", "G01", 24950⟩
    , ⟨"Blue Widget", "B01", 7950⟩ ]

/-- `red_widget_offer_apply_func` inside `get_basket`: reads
`items_ordered["R01"]` (a `defaultdict` read, which may insert the key) and
returns `(count // 2) * (catalog.get("R01").price / 2)`. The halving of the
price is exact: `32950 / 2 = 16475` mils, i.e. `$16.475`. -/
def red_widget_offer_apply_func (items_ordered : Items)
    (catalog : WidgetCatalog) : Option ℤ × Items :=
  let r := dget items_ordered "R01"
  match catalog.get "R01" with
  | none => (none, r.2)
  | some w => (some ((↑(r.1 / 2) : ℤ) * (w.price / 2)), r.2)

/-- `red_widget_is_cool_offer` inside `get_basket`. -/
def red_widget_is_cool_offer : SpecialOffer :=
  SpecialOffer.init "Buy one red widget, get the second half price"
    red_widget_offer_apply_func

/-- `get_basket`: the default bootstrap configuration. -/
def get_basket : Basket :=
  Basket.init widget_catalog delivery_charge
    (some ⟨[red_widget_is_cool_offer]⟩)

/-- Fold `Basket.add` over a list of codes, keeping the post-state of each
call (the test driver adds codes one by one). -/
def addAll (b : Basket) (codes : List String) : Basket :=
  codes.foldl (fun acc c => (acc.add c).2) b

/-- Zero-pad a fractional part to three digits. -/
def pad3 (n : ℕ) : String :=
  if n < 10 then "00" ++ toString n
  else if n < 100 then "0" ++ toString n
  else toString n

/-- Python `f"{x:.3f}"` for a non-negative amount in mils. Every total the
program displays is an exact integer number of mils, so the three-decimal
format is exact and no rounding is exercised. -/
def format3 (m : ℤ) : String :=
  let n : ℕ := m.toNat
  toString (n / 1000) ++ "." ++ pad3 (n % 1000)

/-- The interactive loop's and the test's display of a total:
`f"{basket.total():.3f}"[:-1]` — format to three decimals, drop the last
character (truncation, not rounding). -/
def display_total (m : ℤ) : String :=
  (format3 m).dropRight 1

/-- Displayed total of a basket, `none` when `total()` raises. -/
def Basket.totalDisplay (b : Basket) : Option String :=
  (b.total).1.map display_total

/-- The key list of an order-line map, in insertion order. -/
def keysOf (it : Items) : List String :=
  it.map Prod.fst

/-- An `apply_func` that always returns a zero discount and leaves the items
untouched (used to exercise `SpecialOffer.init` on its own). -/
def zero_discount_apply_func : Items → WidgetCatalog → Option ℤ × Items :=
  fun it _ => (some 0, it)

/-- The delivery tier table exactly as tabulated in §4.2 of the spec, with
both bounds of each row written out; amounts in mils. -/
def delivery_charge_spec_table (s : ℤ) : Option ℤ :=
  if s < 0 then none
  else if s = 0 then some 0
  else if 0 < s ∧ s < 50000 then some 4950
  else if 50000 ≤ s ∧ s < 90000 then some 2950
  else if 90000 ≤ s then some 0
  else none

/-- Claim C2: for every subtotal `s`, `delivery_charge s` behaves exactly per
the §4.2 tier table (negative fails, `0 ↦ 0`, `(0,50) ↦ 4.95`,
`[50,90) ↦ 2.95`, `[90,∞) ↦ 0`); in particular the boundary values give
`delivery_charge 50 = 2.95` and `delivery_charge 90 = 0` (amounts in mils). -/
theorem delivery_charge_matches_spec_table :
    (∀ s : ℤ, delivery_charge s = delivery_charge_spec_table s)
    ∧ delivery_charge 50000 = some 2950 ∧ delivery_charge 90000 = some 0 := by
  refine ⟨fun s => ?_, by decide, by decide⟩
  unfold delivery_charge delivery_charge_spec_table
  split_ifs <;> first | rfl | (exfalso; omega)

/-- Claim C3: the four end-to-end scenarios from §8 of the spec, on the
default `get_basket` configuration, displayed via `f"{total:.3f}"[:-1]`
(truncation, not rounding): B01+G01 → "37.85", R01+R01 → "54.37",
R01+G01 → "60.85", B01+B01+R01+R01+R01 → "98.27". -/
theorem end_to_end_scenarios :
    (addAll get_basket ["B01", "G01"]).totalDisplay = some "37.85"
    ∧ (addAll get_basket ["R01", "R01"]).totalDisplay = some "54.37"
    ∧ (addAll get_basket ["R01", "G01"]).totalDisplay = some "60.85"
    ∧ (addAll get_basket ["B01", "B01", "R01", "R01", "R01"]).totalDisplay
        = some "98.27" := by
  decide

/-- Claim C7, counterexample: constructing a `SpecialOffer` with an empty
description does not fail — `SpecialOffer.__init__` performs no validation,
so the construction succeeds and yields an offer whose description is the
empty string; no `ConfigurationError` exists anywhere in the code. -/
theorem special_offer_empty_description_constructs :
    (SpecialOffer.init "" zero_discount_apply_func).description = "" :=
  rfl

/-- Claim C7, amended: `SpecialOffer` construction performs no validation at
all; any description, empty included, is accepted and stored unchanged. -/
theorem special_offer_init_no_validation (d : String)
    (f : Items → WidgetCatalog → Option ℤ × Items) :
    (SpecialOffer.init d f).description = d
    ∧ (SpecialOffer.init d f).apply_func = f :=
  ⟨rfl, rfl⟩

/-- Claim C10: `Basket.add` is atomic on failure — for every basket state and
every code absent from the catalog, the failing call raises and leaves the
basket exactly as it was, so subsequent `total()` and `widgets` output are
unaffected. -/
theorem basket_add_atomic_on_failure (b : Basket) (code : String)
    (h : b.catalog.contains code = false) :
    (b.add code).1 = none ∧ (b.add code).2 = b
    ∧ ((b.add code).2).total = b.total ∧ ((b.add code).2).widgets = b.widgets := by
  have he : b.add code = (none, b) := by simp [Basket.add, h]
  rw [he]
  exact ⟨rfl, rfl, rfl, rfl⟩

/-- Witness for C10 at `get_basket` and the unknown code "Z99". -/
theorem basket_add_atomic_on_failure_witness :
    (get_basket.add "Z99").1 = none ∧ (get_basket.add "Z99").2 = get_basket :=
  ⟨(basket_add_atomic_on_failure get_basket "Z99" (by decide)).1,
   (basket_add_atomic_on_failure get_basket "Z99" (by decide)).2.1⟩

lemma qty_dincr_self (it : Items) (k : String) :
    qty (dincr it k) k = qty it k + 1 := by
  induction it with
  | nil => simp [qty, dincr, alookup]
  | cons p rest ih =>
    obtain ⟨k', v⟩ := p
    by_cases h : k' = k
    · subst h
      simp [qty, dincr, alookup]
    · simp only [qty, dincr, alookup, if_neg h] at ih ⊢
      exact ih

lemma qty_dincr_other (it : Items) (k c : String) (h : c ≠ k) :
    qty (dincr it k) c = qty it c := by
  have hkc : k ≠ c := fun hh => h hh.symm
  induction it with
  | nil => simp [qty, dincr, alookup, hkc]
  | cons p rest ih =>
    obtain ⟨k', v⟩ := p
    by_cases hk : k' = k
    · subst hk
      simp [qty, dincr, alookup, hkc]
    · by_cases hc : k' = c
      · subst hc
        simp [qty, dincr, alookup, hk]
      · simp only [qty, dincr, alookup, if_neg hk, if_neg hc] at ih ⊢
        exact ih

/-- Claim C4: `Basket.add code` fails (with the propagated NotFound error)
iff the code is absent from the catalog; when present, it increments exactly
that code's quantity by 1 and changes no other order line; and a code absent
from the order-line map has implicit quantity 0. -/
theorem basket_add_spec (b : Basket) (code : String) :
    ((b.add code).1 = none ↔ b.catalog.contains code = false)
    ∧ (b.catalog.contains code = true →
        qty ((b.add code).2.items_ordered) code = qty b.items_ordered code + 1
        ∧ ∀ c, c ≠ code →
            qty ((b.add code).2.items_ordered) c = qty b.items_ordered c)
    ∧ ∀ (it : Items) (c : String), alookup it c = none → qty it c = 0 := by
  refine ⟨?_, ?_, ?_⟩
  · cases h : b.catalog.contains code <;> simp [Basket.add, h]
  · intro h
    simp only [Basket.add, h, if_true]
    exact ⟨qty_dincr_self _ _, fun c hc => qty_dincr_other _ _ _ hc⟩
  · intro it c h
    simp [qty, h]

/-- Witness for C4: adding "R01" to the fresh default basket takes its
quantity from 0 to 1, leaves "G01" at 0, and the empty map gives implicit
quantity 0. -/
theorem basket_add_spec_witness :
    qty ((get_basket.add "R01").2.items_ordered) "R01"
        = qty get_basket.items_ordered "R01" + 1
    ∧ qty ((get_basket.add "R01").2.items_ordered) "G01"
        = qty get_basket.items_ordered "G01"
    ∧ qty ([] : Items) "B01" = 0 :=
  ⟨((basket_add_spec get_basket "R01").2.1 (by decide)).1,
   ((basket_add_spec get_basket "R01").2.1 (by decide)).2 "G01" (by decide),
   (basket_add_spec get_basket "R01").2.2 [] "B01" rfl⟩

/-- Claim C6: for every basket whose delivery strategy is the program's
`delivery_charge`, `clear()` followed immediately by `total()` yields exactly
0 (the delivery charge at zero subtotal), and `clear()` leaves the catalog,
the delivery-charge function and the discount rules untouched. -/
theorem basket_clear_then_total (b : Basket)
    (h : b.calculate_delivery_charge = delivery_charge) :
    ((b.clear).total).1 = some 0
    ∧ (b.clear).catalog = b.catalog
    ∧ (b.clear).calculate_delivery_charge = b.calculate_delivery_charge
    ∧ (b.clear).special_offers_handler = b.special_offers_handler := by
  refine ⟨?_, rfl, rfl, rfl⟩
  cases hh : b.special_offers_handler <;>
    simp [Basket.total, Basket.clear, Basket.discountPair, sumLines,
      SpecialOfferHandler.get_discount, hh, h, delivery_charge]

/-- Witness for C6 on a populated default basket. -/
theorem basket_clear_then_total_witness :
    (((addAll get_basket ["R01"]).clear).total).1 = some 0 :=
  (basket_clear_then_total (addAll get_basket ["R01"]) rfl).1

/-- Claim C5: for every basket state, whenever the line sum, the Discount
Set's discount (0 when no handler is configured) and the delivery charge on
the after-discount subtotal all evaluate, `total()` returns exactly
line sum − discount + delivery charge. -/
theorem basket_total_formula (b : Basket) (s d f : ℤ)
    (hs : sumLines b.items_ordered b.catalog = some s)
    (hd : (b.discountPair).1 = some d)
    (hf : b.calculate_delivery_charge (s - d) = some f) :
    (b.total).1 = some (s - d + f) := by
  unfold Basket.total
  rcases hdp : b.discountPair with ⟨od, it2⟩
  rw [hdp] at hd
  simp only at hd
  subst hd
  rw [hs]
  simp [hf]

/-- Witness for C5: one blue widget — line sum `$7.95`, discount 0, delivery
`$4.95` (amounts in mils). -/
theorem basket_total_formula_witness :
    ((addAll get_basket ["B01"]).total).1 = some (7950 - 0 + 4950) :=
  basket_total_formula (addAll get_basket ["B01"]) 7950 0 4950
    (by decide) (by decide) (by decide)

/-- Claim C1, refuted by the code: on the default configuration, `total()`
mutates the order-line map. After `add("B01")` the map's keys are exactly
["B01"]; calling `total()` runs `red_widget_offer_apply_func`, whose
`defaultdict` read `items_ordered["R01"]` inserts the key "R01" with
quantity 0, so after `total()` the keys are ["B01", "R01"] and the `widgets`
output gains a spurious "Red Widget: 0" line. -/
theorem total_mutates_order_lines :
    keysOf ((get_basket.add "B01").2.items_ordered) = ["B01"]
    ∧ keysOf (((get_basket.add "B01").2.total).2.items_ordered) = ["B01", "R01"]
    ∧ qty (((get_basket.add "B01").2.total).2.items_ordered) "R01" = 0
    ∧ ((get_basket.add "B01").2.total).2.widgets
        = some "Blue Widget: 1\nRed Widget: 0" := by
  decide

/-- Unit price (in mils) of a code in the default catalog, 0 when absent. -/
def unitPrice (code : String) : ℤ :=
  match widget_catalog.get code with
  | some w => w.price
  | none => 0

/-- Pure value of the line-sum loop of `Basket.total` on the default
catalog. -/
def lineSum : Items → ℤ
  | [] => 0
  | (code, count) :: rest => unitPrice code * count + lineSum rest

/-- Pure value of the red-widget offer's discount: every second R01 is half
price, `(qty // 2) * 16475` mils. -/
def redDiscount (it : Items) : ℤ :=
  (↑(qty it "R01" / 2) : ℤ) * 16475

/-- Subtotal after discount on the default configuration. -/
def afterDiscount (it : Items) : ℤ :=
  lineSum it - redDiscount it

/-- Pure value of `delivery_charge` on a non-negative subtotal. -/
def feeTier (t : ℤ) : ℤ :=
  if t = 0 then 0
  else if t < 50000 then 4950
  else if t < 90000 then 2950
  else 0

/-- Pure value of `Basket.total` on the default configuration. -/
def defaultTotal (it : Items) : ℤ :=
  afterDiscount it + feeTier (afterDiscount it)

/-- A basket wired exactly as `get_basket` wires it, whose order-line keys
all come from the default catalog. -/
def DefaultConfig (b : Basket) : Prop :=
  b.catalog = widget_catalog
  ∧ b.calculate_delivery_charge = delivery_charge
  ∧ b.special_offers_handler = some ⟨[red_widget_is_cool_offer]⟩
  ∧ ∀ p ∈ b.items_ordered, widget_catalog.contains p.1 = true

/-- Basket states reachable from the default `get_basket` configuration by
any sequence of `add` and `clear` calls (failed `add`s included, which leave
the state unchanged). -/
inductive Reachable : Basket → Prop where
  | init : Reachable get_basket
  | add (b : Basket) (code : String) : Reachable b → Reachable (b.add code).2
  | clear (b : Basket) : Reachable b → Reachable b.clear

lemma widget_catalog_widgets :
    widget_catalog.widgets =
      [ ("R01", ⟨"Red Widget", "R01", 32950⟩)
      , ("G01", ⟨"Green Widget", "G01", 24950⟩)
      , ("B01", ⟨"Blue Widget", "B01", 7950⟩) ] := by
  decide

lemma contains_cases (code : String)
    (h : widget_catalog.contains code = true) :
    code = "R01" ∨ code = "G01" ∨ code = "B01" := by
  simp only [WidgetCatalog.contains, widget_catalog_widgets, alookup] at h
  split_ifs at h with h1 h2 h3
  · exact Or.inl h1.symm
  · exact Or.inr (Or.inl h2.symm)
  · exact Or.inr (Or.inr h3.symm)
  · simp at h

lemma unitPrice_nonneg (code : String) : 0 ≤ unitPrice code := by
  by_cases h : widget_catalog.contains code = true
  · rcases contains_cases code h with h1 | h1 | h1 <;> subst h1 <;> decide
  · simp only [Bool.not_eq_true] at h
    simp [unitPrice, WidgetCatalog.get, h]

lemma unitPrice_pos (code : String)
    (h : widget_catalog.contains code = true) : 0 < unitPrice code := by
  rcases contains_cases code h with h1 | h1 | h1 <;> subst h1 <;> decide

lemma lineSum_nonneg (it : Items) : 0 ≤ lineSum it := by
  induction it with
  | nil => simp [lineSum]
  | cons p rest ih =>
    obtain ⟨code, count⟩ := p
    have h1 := unitPrice_nonneg code
    have h2 : (0 : ℤ) ≤ count := Int.ofNat_nonneg count
    have h3 : 0 ≤ unitPrice code * count := mul_nonneg h1 h2
    simp only [lineSum]
    linarith

lemma unitPrice_qty_le_lineSum (it : Items) (code : String) :
    unitPrice code * qty it code ≤ lineSum it := by
  induction it with
  | nil => simp [qty, alookup, lineSum]
  | cons p rest ih =>
    obtain ⟨k, v⟩ := p
    by_cases h : k = code
    · subst h
      have h1 := lineSum_nonneg rest
      simp [lineSum, qty, alookup]
      linarith
    · have h1 := unitPrice_nonneg k
      have h2 : (0 : ℤ) ≤ v := Int.ofNat_nonneg v
      have h3 : 0 ≤ unitPrice k * v := mul_nonneg h1 h2
      simp only [lineSum, qty, alookup, if_neg h]
      simp only [qty] at ih
      linarith

lemma redDiscount_nonneg (it : Items) : 0 ≤ redDiscount it := by
  unfold redDiscount
  have h : (0 : ℤ) ≤ ↑(qty it "R01" / 2) := Int.ofNat_nonneg _
  linarith

lemma redDiscount_le_lineSum (it : Items) : redDiscount it ≤ lineSum it := by
  have h1 := unitPrice_qty_le_lineSum it "R01"
  have hup : unitPrice "R01" = 32950 := by decide
  rw [hup] at h1
  unfold redDiscount
  have h2 : (↑(qty it "R01" / 2) : ℤ) ≤ ↑(qty it "R01") := by
    exact_mod_cast Nat.div_le_self (qty it "R01") 2
  have h3 : (0 : ℤ) ≤ ↑(qty it "R01") := Int.ofNat_nonneg _
  nlinarith

lemma afterDiscount_nonneg (it : Items) : 0 ≤ afterDiscount it := by
  have := redDiscount_le_lineSum it
  unfold afterDiscount
  linarith

lemma feeTier_nonneg (t : ℤ) : 0 ≤ feeTier t := by
  unfold feeTier
  split_ifs <;> norm_num

lemma delivery_charge_eval (t : ℤ) (h : 0 ≤ t) :
    delivery_charge t = some (feeTier t) := by
  unfold delivery_charge feeTier
  split_ifs <;> first | rfl | (exfalso; omega)

lemma dget_fst (it : Items) (code : String) :
    (dget it code).1 = qty it code := by
  induction it with
  | nil => simp [dget, qty, alookup]
  | cons p rest ih =>
    obtain ⟨k, v⟩ := p
    by_cases h : k = code
    · simp [dget, qty, alookup, h]
    · simp only [dget, qty, alookup, if_neg h] at ih ⊢
      exact ih

lemma red_apply_eval (it : Items) :
    red_widget_offer_apply_func it widget_catalog
      = (some (redDiscount it), (dget it "R01").2) := by
  unfold red_widget_offer_apply_func redDiscount
  have hget : widget_catalog.get "R01" = some ⟨"Red Widget", "R01", 32950⟩ := by
    decide
  rw [hget]
  simp only [dget_fst]
  norm_num

lemma sumLines_eval (it : Items)
    (h : ∀ p ∈ it, widget_catalog.contains p.1 = true) :
    sumLines it widget_catalog = some (lineSum it) := by
  induction it with
  | nil => rfl
  | cons p rest ih =>
    obtain ⟨code, count⟩ := p
    have hc : widget_catalog.contains code = true := h (code, count) (by simp)
    have hrest := ih (fun q hq => h q (List.mem_cons_of_mem _ hq))
    unfold sumLines
    cases hg : widget_catalog.get code with
    | none =>
      exfalso
      rw [WidgetCatalog.get, if_pos hc] at hg
      rw [WidgetCatalog.contains, hg] at hc
      simp at hc
    | some w =>
      rw [hrest]
      have hu : unitPrice code = w.price := by
        unfold unitPrice
        rw [hg]
      simp [lineSum, hu]

lemma discountPair_eval (b : Basket) (hcat : b.catalog = widget_catalog)
    (hoff : b.special_offers_handler = some ⟨[red_widget_is_cool_offer]⟩) :
    (b.discountPair).1 = some (redDiscount b.items_ordered) := by
  unfold Basket.discountPair
  rw [hoff, hcat]
  unfold SpecialOfferHandler.get_discount
  by_cases h : b.items_ordered.length ≠ 0
  · have hne : b.items_ordered ≠ [] := by
      intro he
      rw [he] at h
      exact h rfl
    simp only [h, if_true, offersLoop, SpecialOffer.apply,
      red_widget_is_cool_offer, SpecialOffer.init, red_apply_eval]
    simp [hne]
  · push_neg at h
    have he : b.items_ordered = [] := List.length_eq_zero.mp h
    simp [he, redDiscount, qty, alookup]

lemma total_eval (b : Basket) (hcat : b.catalog = widget_catalog)
    (hdel : b.calculate_delivery_charge = delivery_charge)
    (hoff : b.special_offers_handler = some ⟨[red_widget_is_cool_offer]⟩)
    (hkeys : ∀ p ∈ b.items_ordered, widget_catalog.contains p.1 = true) :
    (b.total).1 = some (defaultTotal b.items_ordered) := by
  unfold Basket.total
  rcases hdp : b.discountPair with ⟨od, it2⟩
  have h1 := discountPair_eval b hcat hoff
  rw [hdp] at h1
  simp only at h1
  subst h1
  rw [hcat, sumLines_eval _ hkeys, hdel]
  have hnn : 0 ≤ lineSum b.items_ordered - redDiscount b.items_ordered :=
    afterDiscount_nonneg b.items_ordered
  simp [delivery_charge_eval _ hnn, defaultTotal, afterDiscount]

lemma mem_dincr (it : Items) (code : String) (p : String × ℕ)
    (hp : p ∈ dincr it code) : p ∈ it ∨ p.1 = code := by
  induction it with
  | nil =>
    simp [dincr] at hp
    right
    rw [hp]
  | cons q rest ih =>
    obtain ⟨k, v⟩ := q
    by_cases h : k = code
    · simp only [dincr, if_pos h] at hp
      rcases List.mem_cons.mp hp with hp | hp
      · right
        rw [hp, h]
      · left
        exact List.mem_cons_of_mem _ hp
    · simp only [dincr, if_neg h] at hp
      rcases List.mem_cons.mp hp with hp | hp
      · left
        rw [hp]
        exact List.mem_cons_self _ _
      · rcases ih hp with hq | hq
        · left
          exact List.mem_cons_of_mem _ hq
        · right
          exact hq

lemma reachable_config (b : Basket) (h : Reachable b) : DefaultConfig b := by
  induction h with
  | init =>
    refine ⟨rfl, rfl, rfl, ?_⟩
    intro p hp
    simp [get_basket, Basket.init] at hp
  | add b code hb ih =>
    obtain ⟨h1, h2, h3, h4⟩ := ih
    by_cases hc : b.catalog.contains code = true
    · have he : (b.add code).2
          = { b with items_ordered := dincr b.items_ordered code } := by
        simp [Basket.add, hc]
      rw [DefaultConfig, he]
      refine ⟨h1, h2, h3, ?_⟩
      intro p hp
      rcases mem_dincr _ _ _ hp with hm | hm
      · exact h4 p hm
      · rw [hm]
        rw [h1] at hc
        exact hc
    · have he : (b.add code).2 = b := by
        simp only [Bool.not_eq_true] at hc
        simp [Basket.add, hc]
      rw [he]
      exact ⟨h1, h2, h3, h4⟩
  | clear b hb ih =>
    obtain ⟨h1, h2, h3, _⟩ := ih
    refine ⟨h1, h2, h3, ?_⟩
    intro p hp
    simp [Basket.clear] at hp

/-- Claim C8: every basket state reachable from the default `get_basket`
configuration by `add` and `clear` calls has a defined, non-negative
`total()`. -/
theorem basket_total_nonneg (b : Basket) (h : Reachable b) :
    ∃ t, (b.total).1 = some t ∧ 0 ≤ t := by
  obtain ⟨h1, h2, h3, h4⟩ := reachable_config b h
  refine ⟨defaultTotal b.items_ordered, total_eval b h1 h2 h3 h4, ?_⟩
  unfold defaultTotal
  have ha := afterDiscount_nonneg b.items_ordered
  have hf := feeTier_nonneg (afterDiscount b.items_ordered)
  linarith

/-- Witness for C8 at the freshly bootstrapped basket. -/
theorem basket_total_nonneg_witness :
    ∃ t, (get_basket.total).1 = some t ∧ 0 ≤ t :=
  basket_total_nonneg get_basket Reachable.init

lemma lineSum_dincr (it : Items) (code : String) :
    lineSum (dincr it code) = lineSum it + unitPrice code := by
  induction it with
  | nil =>
    simp [dincr, lineSum]
  | cons p rest ih =>
    obtain ⟨k, v⟩ := p
    by_cases h : k = code
    · subst h
      simp [dincr, lineSum]
      ring
    · simp only [dincr, if_neg h, lineSum, ih]
      ring

lemma redDiscount_dincr_self (it : Items) :
    redDiscount it ≤ redDiscount (dincr it "R01")
    ∧ redDiscount (dincr it "R01") ≤ redDiscount it + 16475 := by
  unfold redDiscount
  rw [qty_dincr_self]
  have h1 : qty it "R01" / 2 ≤ (qty it "R01" + 1) / 2 :=
    Nat.div_le_div_right (Nat.le_succ _)
  have h2 : (qty it "R01" + 1) / 2 ≤ qty it "R01" / 2 + 1 := by omega
  have h1z : ((qty it "R01" / 2 : ℕ) : ℤ) ≤ ((qty it "R01" + 1) / 2 : ℕ) := by
    exact_mod_cast h1
  have h2z : (((qty it "R01" + 1) / 2 : ℕ) : ℤ) ≤ (qty it "R01" / 2 : ℕ) + 1 := by
    exact_mod_cast h2
  constructor
  · linarith
  · linarith

lemma redDiscount_dincr_other (it : Items) (code : String) (h : code ≠ "R01") :
    redDiscount (dincr it code) = redDiscount it := by
  unfold redDiscount
  rw [qty_dincr_other it code "R01" (fun hh => h hh.symm)]

/-- Claim C9: on the default configuration, adding a valid item whose
addition does not change the delivery tier increases `total()` by at least
the item's unit price minus the discount newly unlocked by that add, and the
increase is strict. -/
theorem basket_add_monotone (b : Basket) (code : String)
    (hr : Reachable b) (hc : widget_catalog.contains code = true)
    (hfee : feeTier (afterDiscount ((b.add code).2.items_ordered))
          = feeTier (afterDiscount b.items_ordered)) :
    ∃ t t', (b.total).1 = some t
      ∧ (((b.add code).2).total).1 = some t'
      ∧ t + (unitPrice code
          - (redDiscount ((b.add code).2.items_ordered)
              - redDiscount b.items_ordered)) ≤ t'
      ∧ t < t' := by
  obtain ⟨h1, h2, h3, h4⟩ := reachable_config b hr
  obtain ⟨g1, g2, g3, g4⟩ := reachable_config _ (Reachable.add b code hr)
  have hcb : b.catalog.contains code = true := by
    rw [h1]
    exact hc
  have he : (b.add code).2.items_ordered = dincr b.items_ordered code := by
    simp [Basket.add, hcb]
  have hls : lineSum ((b.add code).2.items_ordered)
      = lineSum b.items_ordered + unitPrice code := by
    rw [he]
    exact lineSum_dincr _ _
  have heq : defaultTotal ((b.add code).2.items_ordered)
      = defaultTotal b.items_ordered + unitPrice code
        - (redDiscount ((b.add code).2.items_ordered)
            - redDiscount b.items_ordered) := by
    simp only [defaultTotal, afterDiscount] at hfee ⊢
    rw [hfee]
    linarith
  have hpos : 0 < unitPrice code
      - (redDiscount ((b.add code).2.items_ordered)
          - redDiscount b.items_ordered) := by
    by_cases hcode : code = "R01"
    · subst hcode
      have hd := redDiscount_dincr_self b.items_ordered
      rw [← he] at hd
      have hup : unitPrice "R01" = 32950 := by decide
      rw [hup]
      obtain ⟨hd1, hd2⟩ := hd
      linarith
    · have hd := redDiscount_dincr_other b.items_ordered code hcode
      rw [← he] at hd
      rw [hd]
      have := unitPrice_pos code hc
      linarith
  refine ⟨defaultTotal b.items_ordered,
    defaultTotal ((b.add code).2.items_ordered),
    total_eval b h1 h2 h3 h4, total_eval _ g1 g2 g3 g4, ?_, ?_⟩
  · linarith
  · linarith

/-- Witness for C9: after R01 and G01 (subtotal `$57.90`, tier `$2.95`),
adding another G01 keeps the tier (`$82.85`, still `$2.95`) and strictly
increases the total. -/
theorem basket_add_monotone_witness :
    ∃ t t', ((addAll get_basket ["R01", "G01"]).total).1 = some t
      ∧ ((((addAll get_basket ["R01", "G01"]).add "G01").2).total).1 = some t'
      ∧ t + (unitPrice "G01"
          - (redDiscount (((addAll get_basket ["R01", "G01"]).add "G01").2.items_ordered)
              - redDiscount (addAll get_basket ["R01", "G01"]).items_ordered)) ≤ t'
      ∧ t < t' := by
  have h0 : Reachable get_basket := Reachable.init
  have h1 := Reachable.add get_basket "R01" h0
  have h2 := Reachable.add (get_basket.add "R01").2 "G01" h1
  exact basket_add_monotone (addAll get_basket ["R01", "G01"]) "G01" h2
    (by decide) (by decide)
